import Mathlib

/-!
# Verification of the kkr live downloader core

A shallow embedding of `src/core/live_downloader.ts` (class
`LiveDownloader`): the bounded-concurrency download scheduler
(`checkQueue` and the event handlers installed in `start`), the
finalize latch, the per-fetch timeout computed in `handleTask`, and
the reassembly planner of `beforeExit` (parity check, orphan filter,
contiguity partitioning, per-sequence merge dispatch, cleanup).

The scheduler runs on a single cooperative thread: each externally
triggered callback (chunk discovery, fetch success, fetch failure,
stream end, first interrupt) mutates the state and ends by invoking
`checkQueue`.  We model a run as a fold of such events over the state.
-/

namespace Kkr

/-- The `type` field of a `Task` ('video' | 'audio'). -/
inductive TaskType where
  | video : TaskType
  | audio : TaskType
deriving DecidableEq, Repr

/-- The `Task` interface of `live_downloader.ts`. -/
structure Task where
  type : TaskType
  url : String
  id : Nat
  retry : Nat
  outputPath : String
deriving DecidableEq, Repr

/-- Task construction in the `new-video-chunks` / `new-audio-chunks`
handlers: a fresh task with `retry = 0` whose output path points into
`video_download/` or `audio_download/` under the working directory. -/
def mkTask (workDir : String) (ty : TaskType) (chunk : Nat × String) : Task :=
  { type := ty
    url := chunk.2
    id := chunk.1
    retry := 0
    outputPath :=
      workDir ++
        (match ty with
          | TaskType.video => "/video_download/"
          | TaskType.audio => "/audio_download/") ++
        toString chunk.1 }

/-- The timeout passed to `download` in `handleTask`:
`Math.min(45000, 15000 + 15000 * task.retry)`. -/
def handleTaskTimeout (t : Task) : Nat :=
  min 45000 (15000 + 15000 * t.retry)

/-- The mutable fields of `LiveDownloader` that the scheduler owns.
`inFlight` lists the tasks whose `handleTask` call is currently being
awaited, so `nowRunningThreads = inFlight.length`.  `dropedTasks`
mirrors the declared field of the class; `finalizeCount` counts the
invocations of `beforeExit` and `discoveredCount` the tasks ever
enqueued (both ghost instrumentation for the statements below). -/
structure SchedulerState where
  workDirectoryName : String
  unfinishedTasks : List Task
  inFlight : List Task
  finishedTasks : List Task
  dropedTasks : List Task
  maxRunningThreads : Nat
  stopFlag : Bool
  finishFlag : Bool
  finalizeCount : Nat
  discoveredCount : Nat
deriving DecidableEq, Repr

/-- State right after `start`: empty queues, cap 16, flags down. -/
def initState (workDir : String) : SchedulerState :=
  { workDirectoryName := workDir
    unfinishedTasks := []
    inFlight := []
    finishedTasks := []
    dropedTasks := []
    maxRunningThreads := 16
    stopFlag := false
    finishFlag := false
    finalizeCount := 0
    discoveredCount := 0 }

/-- The head of `checkQueue`: when no fetch is running, the queue is
empty and the stop flag is set, latch `finishFlag` and invoke
`beforeExit` (counted by `finalizeCount`). -/
def checkFinish (s : SchedulerState) : SchedulerState :=
  if s.inFlight.length = 0 ∧ s.unfinishedTasks = [] ∧ s.stopFlag = true then
    if s.finishFlag = false then
      { s with finishFlag := true, finalizeCount := s.finalizeCount + 1 }
    else s
  else s

/-- The dispatch loop of `checkQueue`: while the thread count is below
`max` and the queue is non-empty, shift the head task into flight and
recurse.  In the source the recursive self-invocation re-evaluates the
finish condition of `checkFinish` as well, but that test is vacuously
false there because `nowRunningThreads` was just incremented, so the
loop is faithfully the dispatch part alone.  The source tests the cap
before testing for an empty queue; both tests return with the state
unchanged, so matching the queue first yields the same value on every
input. -/
def drive (max : Nat) : List Task → List Task → List Task × List Task
  | [], inflight => ([], inflight)
  | t :: rest, inflight =>
      if max ≤ inflight.length then (t :: rest, inflight)
      else drive max rest (inflight ++ [t])

/-- `checkQueue`: finish-latch check, then the dispatch loop. -/
def checkQueue (s : SchedulerState) : SchedulerState :=
  let s1 := checkFinish s
  let r := drive s1.maxRunningThreads s1.unfinishedTasks s1.inFlight
  { s1 with unfinishedTasks := r.1, inFlight := r.2 }

/-- The externally triggered callbacks that drive the scheduler:
chunk discovery batches, completion of an in-flight fetch (success or
failure/timeout), the observer's `end` event, and the first SIGINT. -/
inductive Event where
  | discover (ty : TaskType) (chunks : List (Nat × String))
  | succeed (t : Task)
  | fail (t : Task)
  | streamEnd
  | interrupt
deriving DecidableEq, Repr

/-- One cooperative callback.  `succeed t` / `fail t` fire only for a
task actually in flight (the continuation of its `handleTask` await);
on failure the retry counter is bumped and the task re-appended to the
back of the queue when `retry ≤ 10` — otherwise it is simply forgotten
(the source never pushes to `dropedTasks`).  A second interrupt calls
`process.exit` and is outside this model, so `interrupt` with the stop
flag already set changes nothing. -/
def step (s : SchedulerState) : Event → SchedulerState
  | Event.discover ty chunks =>
      checkQueue
        { s with
            unfinishedTasks :=
              s.unfinishedTasks ++ chunks.map (mkTask s.workDirectoryName ty)
            discoveredCount := s.discoveredCount + chunks.length }
  | Event.succeed t =>
      if t ∈ s.inFlight then
        checkQueue
          { s with
              inFlight := s.inFlight.erase t
              finishedTasks := s.finishedTasks ++ [t] }
      else s
  | Event.fail t =>
      if t ∈ s.inFlight then
        let t1 : Task := { t with retry := t.retry + 1 }
        checkQueue
          { s with
              inFlight := s.inFlight.erase t
              unfinishedTasks :=
                if t1.retry ≤ 10 then s.unfinishedTasks ++ [t1]
                else s.unfinishedTasks }
      else s
  | Event.streamEnd => checkQueue { s with stopFlag := true }
  | Event.interrupt =>
      if s.stopFlag = false then checkQueue { s with stopFlag := true }
      else s

/-- A complete observed run: the callbacks applied in order from the
initial state. -/
def run (workDir : String) (es : List Event) : SchedulerState :=
  es.foldl step (initState workDir)

/-! ## The reassembly planner (`beforeExit`) -/

/-- Stable insertion of a task into a list already sorted by `id`. -/
def insertById (t : Task) : List Task → List Task
  | [] => [t]
  | u :: us => if t.id ≤ u.id then t :: u :: us else u :: insertById t us

/-- `this.finishedTasks.sort((a, b) => a.id - b.id)`: a stable sort by
ascending id (modelled by insertion sort, which is stable; the only
comparator ties are between a video and an audio task of the same id,
and the planner immediately re-partitions the result by type). -/
def sortById : List Task → List Task
  | [] => []
  | t :: ts => insertById t (sortById ts)

/-- The predicate of the `finishedVideoTasks` filter. -/
def isVideo (t : Task) : Bool := t.type = TaskType.video

/-- The predicate of the `finishedAudioTasks` filter. -/
def isAudio (t : Task) : Bool := t.type = TaskType.audio

/-- `finishedVideoTasks` as computed in `beforeExit` (after the sort). -/
def finishedVideoTasks (finished : List Task) : List Task :=
  (sortById finished).filter isVideo

/-- `finishedAudioTasks` as computed in `beforeExit` (after the sort). -/
def finishedAudioTasks (finished : List Task) : List Task :=
  (sortById finished).filter isAudio

/-- `seqs[seqs.length - 1].push(t)`: append `t` to the last group. -/
def pushLast : List (List Task) → Task → List (List Task)
  | [], t => [[t]]
  | [s], t => [s ++ [t]]
  | s :: ss, t => s :: pushLast ss t

/-- The body of the partition loop
`for (let i = 1; i <= finishedVideoTasks.length - 1; i++)`: `prev` is
`finishedVideoTasks[i - 1]`, `rest` the tasks from index `i` on.  A
new group is opened when the id difference from the previous task is
not 1 (JS number subtraction, hence on `Int`), and the CURRENT task —
only — is appended to the last group; the task at index 0 is never
appended by any iteration. -/
def seqsAux (prev : Task) (rest : List Task) (seqs : List (List Task)) :
    List (List Task) :=
  match rest with
  | [] => seqs
  | t :: rs =>
      let seqs1 :=
        if ((t.id : Int) - (prev.id : Int)) ≠ 1 then seqs ++ [[]] else seqs
      seqsAux t rs (pushLast seqs1 t)

/-- The contiguity partitioning of `beforeExit`: a singleton survivor
list becomes one singleton group; otherwise `seqs` starts as `[[]]`
and the loop runs from index 1. -/
def buildSeqs (survivors : List Task) : List (List Task) :=
  match survivors with
  | [v] => [[v]]
  | [] => [[]]
  | v :: rest => seqsAux v rest [[]]

/-- The decision taken by `beforeExit` before any merge dispatch. -/
inductive FinalizePlan where
  /-- `finishedTasks.length === 0`: clean up and return. -/
  | emptyExit : FinalizePlan
  /-- video/audio counts differ: log two fatal lines and `process.exit()`. -/
  | parityMismatch : FinalizePlan
  /-- proceed to merging: the drop counter, the surviving video tasks
  and the computed groups. -/
  | reassemble (dropCounter : Nat) (survivors : List Task)
      (seqs : List (List Task)) : FinalizePlan
deriving DecidableEq, Repr

/-- The pure planning prefix of `beforeExit`: empty-capture check,
sort, parity check, orphan filter, contiguity partitioning. -/
def beforeExitPlan (finished : List Task) : FinalizePlan :=
  if finished.length = 0 then FinalizePlan.emptyExit
  else if (finishedVideoTasks finished).length
      ≠ (finishedAudioTasks finished).length then
    FinalizePlan.parityMismatch
  else
    -- `audioIdFlags[audioTask.id] = true` for each finished audio task,
    -- then `finishedVideoTasks.filter(t => { if (!audioIdFlags)
    -- dropCounter++; return audioIdFlags[t.id]; })`.  The increment is
    -- guarded by the truthiness of the flags ARRAY — always an array,
    -- never falsy — not of the per-id entry, so the counter stays 0;
    -- the filter itself does test the per-id entry.
    let audioIds := (finishedAudioTasks finished).map Task.id
    let dropCounter : Nat := 0
    let survivors :=
      (finishedVideoTasks finished).filter (fun t => audioIds.contains t.id)
    FinalizePlan.reassemble dropCounter survivors (buildSeqs survivors)

/-- The ids of the computed groups, when the plan reached partitioning. -/
def planSeqIds : FinalizePlan → Option (List (List Nat))
  | FinalizePlan.reassemble _ _ seqs => some (seqs.map (List.map Task.id))
  | _ => none

/-- The drop counter, when the plan reached the orphan filter. -/
def planDropCounter : FinalizePlan → Option Nat
  | FinalizePlan.reassemble d _ _ => some d
  | _ => none

/-- The ids of the surviving video tasks, when the plan reached the
orphan filter. -/
def planSurvivorIds : FinalizePlan → Option (List Nat)
  | FinalizePlan.reassemble _ survivors _ => some (survivors.map Task.id)
  | _ => none

/-! ## Merge dispatch and the observable outcome of `beforeExit` -/

/-- The `OutputItem` interface: description (id range) and path. -/
structure OutputItem where
  description : String
  path : String
deriving DecidableEq, Repr

/-- The first fatal line logged on a parity mismatch. -/
def parityErrorLine : String := "下载的音视频块数量不一致 请手动合并"

/-- The second fatal line: it names the working directory path. -/
def workDirErrorLine (workDir : String) : String :=
  "临时文件位于：" ++ workDir

/-- The line logged by the `catch` around one group's merge. -/
def mergeErrorLine (i : Nat) : String :=
  "混流第 " ++ toString (i + 1) ++ " 个输出文件失败"

/-- One iteration of the merge loop for group index `i` (0-based).
`muxOk` tells whether the muxer reports success for this group (the
`success` event of `merge` / `mergeSequences`, resolved inside the
`try`).  On success the output item is pushed with description
`#first - #last`; reading those ids of an EMPTY group throws inside
the same `try`, so it lands in the failure branch like a mux failure.
The output filename takes the `_i+1` suffix only when more than one
group exists. -/
def mergeStep (outName : String) (useSuffix : Bool) (muxOk : Bool)
    (i : Nat) (seq : List Task) : Option OutputItem :=
  if muxOk then
    match seq.head?, seq.getLast? with
    | some a, some b =>
        some
          { description := "#" ++ toString a.id ++ " - #" ++ toString b.id
            path :=
              outName ++ (if useSuffix then "_" ++ toString (i + 1) else "")
                ++ ".mp4" }
    | _, _ => none
  else none

/-- The merge loop of `beforeExit`: every group is attempted in order;
a failed iteration contributes one error line and the loop continues
with the next group. Returns the pushed output items and the logged
error lines. -/
def mergeLoop (outName : String) (useSuffix : Bool) (muxOk : Nat → Bool)
    (i : Nat) : List (List Task) → List OutputItem × List String
  | [] => ([], [])
  | seq :: rest =>
      let r := mergeLoop outName useSuffix muxOk (i + 1) rest
      match mergeStep outName useSuffix (muxOk i) i seq with
      | some item => (item :: r.1, r.2)
      | none => (r.1, mergeErrorLine i :: r.2)

/-- What `beforeExit` observably does: the plan it took, the warning
and error lines it logged, the output items it accumulated, and
whether `clean()` ran. -/
structure RunOutcome where
  plan : FinalizePlan
  warnLines : List String
  errorLines : List String
  outputFiles : List OutputItem
  cleanupRan : Bool
deriving DecidableEq, Repr

/-- `beforeExit`, with the muxer's verdicts supplied by the
environment as `muxOk`.  Empty capture: `clean()` directly.  Parity
mismatch: two fatal lines (the second naming the working directory)
and `process.exit()` — `clean()` never runs, the directory survives.
Otherwise: the orphan-drop warning (only when the counter is
positive), the merge loop over every group, then `clean()`. -/
def beforeExitRun (workDir outName : String) (muxOk : Nat → Bool)
    (finished : List Task) : RunOutcome :=
  match beforeExitPlan finished with
  | FinalizePlan.emptyExit =>
      { plan := FinalizePlan.emptyExit
        warnLines := []
        errorLines := []
        outputFiles := []
        cleanupRan := true }
  | FinalizePlan.parityMismatch =>
      { plan := FinalizePlan.parityMismatch
        warnLines := []
        errorLines := [parityErrorLine, workDirErrorLine workDir]
        outputFiles := []
        cleanupRan := false }
  | FinalizePlan.reassemble d survivors seqs =>
      let useSuffix := decide (1 < seqs.length)
      let r := mergeLoop outName useSuffix muxOk 0 seqs
      { plan := FinalizePlan.reassemble d survivors seqs
        warnLines :=
          if 0 < d then
            ["丢弃了 " ++ toString d ++ " 个没有对应音频的视频块"]
          else []
        errorLines := r.2
        outputFiles := r.1
        cleanupRan := true }

/-- A finished-task list from plain id lists: video tasks of the given
ids followed by audio tasks of the given ids (arrival order is
irrelevant to the planner, which sorts first). -/
def mkFinished (videoIds audioIds : List Nat) : List Task :=
  videoIds.map (fun i =>
    { type := TaskType.video, url := "u", id := i, retry := 0
      outputPath := "v" }) ++
  audioIds.map (fun i =>
    { type := TaskType.audio, url := "u", id := i, retry := 0
      outputPath := "a" })

/-! ## Concrete runs and invariant predicates -/

/-- The single discovered task of the retry-exhaustion run, at a given
retry count. -/
def sampleTask (k : Nat) : Task :=
  { mkTask "wd" TaskType.video (1, "u") with retry := k }

/-- One video chunk is discovered and its fetch then fails eleven
times in a row (retry counts 0 through 10 at failure time). -/
def exhaustedRunEvents : List Event :=
  Event.discover TaskType.video [(1, "u")] ::
    (List.range 11).map (fun k => Event.fail (sampleTask k))

/-- The completion condition of `checkQueue`: no running fetch, empty
queue, stop notified. -/
def FinishCond (s : SchedulerState) : Prop :=
  s.inFlight = [] ∧ s.unfinishedTasks = [] ∧ s.stopFlag = true

/-- The concurrency-cap invariant. -/
def InvCap (s : SchedulerState) : Prop :=
  s.inFlight.length ≤ s.maxRunningThreads

/-- The finalize-latch invariant: the latch and the invocation count
move together, and whenever the completion condition holds the latch
is already set. -/
def InvOnce (s : SchedulerState) : Prop :=
  (s.finishFlag = false → s.finalizeCount = 0) ∧
  (s.finishFlag = true → s.finalizeCount = 1) ∧
  (FinishCond s → s.finishFlag = true)

/-- A task used by the merge-isolation witness run. -/
def c9Task : Task :=
  { type := TaskType.video, url := "u", id := 5, retry := 0
    outputPath := "v" }

/-- The output item produced for group 1 of the witness run. -/
def c9Item : OutputItem :=
  { description := "#5 - #5", path := "o_2.mp4" }

/-! ## Helper lemmas -/

theorem checkFinish_workDir (s : SchedulerState) :
    (checkFinish s).workDirectoryName = s.workDirectoryName := by
  unfold checkFinish
  split
  · split <;> rfl
  · rfl

theorem checkFinish_unfinished (s : SchedulerState) :
    (checkFinish s).unfinishedTasks = s.unfinishedTasks := by
  unfold checkFinish
  split
  · split <;> rfl
  · rfl

theorem checkFinish_inFlight (s : SchedulerState) :
    (checkFinish s).inFlight = s.inFlight := by
  unfold checkFinish
  split
  · split <;> rfl
  · rfl

theorem checkFinish_max (s : SchedulerState) :
    (checkFinish s).maxRunningThreads = s.maxRunningThreads := by
  unfold checkFinish
  split
  · split <;> rfl
  · rfl

theorem checkFinish_stop (s : SchedulerState) :
    (checkFinish s).stopFlag = s.stopFlag := by
  unfold checkFinish
  split
  · split <;> rfl
  · rfl

theorem checkQueue_max (s : SchedulerState) :
    (checkQueue s).maxRunningThreads = s.maxRunningThreads := by
  simp [checkQueue, checkFinish_max]

theorem checkQueue_stop (s : SchedulerState) :
    (checkQueue s).stopFlag = s.stopFlag := by
  simp [checkQueue, checkFinish_stop]

theorem checkQueue_finishFlag (s : SchedulerState) :
    (checkQueue s).finishFlag = (checkFinish s).finishFlag := by
  simp [checkQueue]

theorem checkQueue_finalizeCount (s : SchedulerState) :
    (checkQueue s).finalizeCount = (checkFinish s).finalizeCount := by
  simp [checkQueue]

theorem checkQueue_inFlight (s : SchedulerState) :
    (checkQueue s).inFlight =
      (drive s.maxRunningThreads s.unfinishedTasks s.inFlight).2 := by
  simp [checkQueue, checkFinish_max, checkFinish_unfinished, checkFinish_inFlight]

theorem checkQueue_unfinished (s : SchedulerState) :
    (checkQueue s).unfinishedTasks =
      (drive s.maxRunningThreads s.unfinishedTasks s.inFlight).1 := by
  simp [checkQueue, checkFinish_max, checkFinish_unfinished, checkFinish_inFlight]

/-- The dispatch loop never exceeds the cap: if the in-flight list is
within the cap on entry, it is on exit. -/
theorem drive_inflight_le (max : Nat) (pending : List Task) :
    ∀ inflight : List Task, inflight.length ≤ max →
      (drive max pending inflight).2.length ≤ max := by
  induction pending with
  | nil => intro inflight h; exact h
  | cons t rest ih =>
      intro inflight h
      unfold drive
      split
      · exact h
      · next hcap =>
          exact ih (inflight ++ [t]) (by simp; omega)

/-- If the dispatch loop exits with both lists empty, it entered with
both lists empty. -/
theorem drive_nil_nil (max : Nat) (pending : List Task) :
    ∀ inflight : List Task,
      (drive max pending inflight).1 = [] →
      (drive max pending inflight).2 = [] →
      pending = [] ∧ inflight = [] := by
  induction pending with
  | nil => intro inflight h1 h2; exact ⟨rfl, h2⟩
  | cons t rest ih =>
      intro inflight h1 h2
      unfold drive at h1 h2
      split at h1
      · exact absurd h1 (by simp)
      · next hcap =>
          split at h2
          · exact absurd hcap (by simp_all)
          · rcases ih (inflight ++ [t]) h1 h2 with ⟨-, habs⟩
            exact absurd habs (by simp)

/-- Every callback leaves the configured cap unchanged. -/
theorem step_max (s : SchedulerState) (e : Event) :
    (step s e).maxRunningThreads = s.maxRunningThreads := by
  cases e <;> simp only [step] <;> (try split) <;> simp [checkQueue_max]

/-- `checkQueue` keeps the in-flight count within the cap. -/
theorem checkQueue_invCap (s : SchedulerState) (h : InvCap s) :
    InvCap (checkQueue s) := by
  unfold InvCap
  rw [checkQueue_inFlight, checkQueue_max]
  exact drive_inflight_le s.maxRunningThreads s.unfinishedTasks s.inFlight h

/-- Every callback keeps the in-flight count within the cap: discovery
only lengthens the queue, and each completion path removes its task
from flight before `checkQueue` refills up to the cap. -/
theorem step_invCap (s : SchedulerState) (e : Event) (h : InvCap s) :
    InvCap (step s e) := by
  have herase : ∀ t : Task, (s.inFlight.erase t).length ≤ s.maxRunningThreads :=
    fun t => le_trans (List.erase_sublist t s.inFlight).length_le h
  cases e with
  | discover ty chunks => exact checkQueue_invCap _ h
  | succeed t =>
      simp only [step]
      split
      · exact checkQueue_invCap _ (herase t)
      · exact h
  | fail t =>
      simp only [step]
      split
      · exact checkQueue_invCap _ (herase t)
      · exact h
  | streamEnd => exact checkQueue_invCap _ h
  | interrupt =>
      simp only [step]
      split
      · exact checkQueue_invCap _ h
      · exact h

/-- If the completion condition holds after `checkQueue`, the latch is
set: the dispatch loop can only have left both lists empty if they
were empty on entry, in which case the head of `checkQueue` latched. -/
theorem checkQueue_cond_flag (s : SchedulerState)
    (h : FinishCond (checkQueue s)) : (checkQueue s).finishFlag = true := by
  obtain ⟨hif, hun, hst⟩ := h
  rw [checkQueue_inFlight] at hif
  rw [checkQueue_unfinished] at hun
  rcases drive_nil_nil s.maxRunningThreads s.unfinishedTasks s.inFlight hun hif
    with ⟨hp, hi⟩
  rw [checkQueue_stop] at hst
  rw [checkQueue_finishFlag]
  unfold checkFinish
  rw [if_pos ⟨by simp [hi], hp, hst⟩]
  split
  · rfl
  · next hff => simpa using hff

/-- The latch and the invocation count move together through
`checkQueue`. -/
theorem checkQueue_flag_count (s : SchedulerState)
    (h1 : s.finishFlag = false → s.finalizeCount = 0)
    (h2 : s.finishFlag = true → s.finalizeCount = 1) :
    ((checkQueue s).finishFlag = false → (checkQueue s).finalizeCount = 0) ∧
    ((checkQueue s).finishFlag = true → (checkQueue s).finalizeCount = 1) := by
  rw [checkQueue_finishFlag, checkQueue_finalizeCount]
  unfold checkFinish
  split
  · split
    · next hff =>
        constructor
        · intro hcontra; simp at hcontra
        · intro _; simp [h1 hff]
    · exact ⟨h1, h2⟩
  · exact ⟨h1, h2⟩

/-- Every callback preserves the finalize-latch invariant. -/
theorem step_invOnce (s : SchedulerState) (e : Event) (h : InvOnce s) :
    InvOnce (step s e) := by
  obtain ⟨h1, h2, h3⟩ := h
  have hq : ∀ s1 : SchedulerState,
      s1.finishFlag = s.finishFlag → s1.finalizeCount = s.finalizeCount →
      InvOnce (checkQueue s1) := by
    intro s1 hf hc
    rcases checkQueue_flag_count s1 (by rw [hf, hc]; exact h1)
      (by rw [hf, hc]; exact h2) with ⟨g1, g2⟩
    exact ⟨g1, g2, checkQueue_cond_flag s1⟩
  cases e with
  | discover ty chunks => exact hq _ rfl rfl
  | succeed t =>
      simp only [step]
      split
      · exact hq _ rfl rfl
      · exact ⟨h1, h2, h3⟩
  | fail t =>
      simp only [step]
      split
      · exact hq _ rfl rfl
      · exact ⟨h1, h2, h3⟩
  | streamEnd => exact hq _ rfl rfl
  | interrupt =>
      simp only [step]
      split
      · exact hq _ rfl rfl
      · exact ⟨h1, h2, h3⟩

/-- Folding any event list preserves the cap invariant along with the
cap value itself. -/
theorem foldl_invCap (es : List Event) :
    ∀ s : SchedulerState, InvCap s →
      InvCap (es.foldl step s) ∧
      (es.foldl step s).maxRunningThreads = s.maxRunningThreads := by
  induction es with
  | nil => intro s h; exact ⟨h, rfl⟩
  | cons e rest ih =>
      intro s h
      rcases ih (step s e) (step_invCap s e h) with ⟨g1, g2⟩
      exact ⟨g1, by rw [List.foldl_cons, g2, step_max]⟩

/-- Folding any event list preserves the finalize-latch invariant. -/
theorem foldl_invOnce (es : List Event) :
    ∀ s : SchedulerState, InvOnce s → InvOnce (es.foldl step s) := by
  induction es with
  | nil => intro s h; exact h
  | cons e rest ih => intro s h; exact ih (step s e) (step_invOnce s e h)

/-- The initial state satisfies both invariants. -/
theorem initState_inv (workDir : String) :
    InvCap (initState workDir) ∧ InvOnce (initState workDir) := by
  refine ⟨by simp [InvCap, initState], ?_, ?_, ?_⟩
  · intro _; rfl
  · intro hcontra; simp [initState] at hcontra
  · intro hc; rcases hc with ⟨-, -, hstop⟩; simp [initState] at hstop

/-- The merge loop produces exactly one outcome per group: an output
item or an error line — no group is skipped. -/
theorem mergeLoop_length (outName : String) (u : Bool) (m : Nat → Bool) :
    ∀ (seqs : List (List Task)) (i : Nat),
      (mergeLoop outName u m i seqs).1.length
        + (mergeLoop outName u m i seqs).2.length = seqs.length := by
  intro seqs
  induction seqs with
  | nil => intro i; simp [mergeLoop]
  | cons seq rest ih =>
      intro i
      have h1 := ih (i + 1)
      simp only [mergeLoop]
      cases mergeStep outName u (m i) i seq <;>
        simp only [List.length_cons, List.length] <;> omega

/-- A failing iteration leaves its error line in the log, whatever the
other groups do. -/
theorem mergeLoop_fail_mem (outName : String) (u : Bool) (m : Nat → Bool) :
    ∀ (seqs : List (List Task)) (i k : Nat), k < seqs.length →
      mergeStep outName u (m (i + k)) (i + k) (seqs.getD k []) = none →
      mergeErrorLine (i + k) ∈ (mergeLoop outName u m i seqs).2 := by
  intro seqs
  induction seqs with
  | nil => intro i k hk; simp at hk
  | cons seq rest ih =>
      intro i k hk hfail
      cases k with
      | zero =>
          simp only [Nat.add_zero] at hfail ⊢
          simp only [List.getD_cons_zero] at hfail
          simp only [mergeLoop, hfail]
          exact List.mem_cons_self _ _
      | succ k1 =>
          have hk1 : k1 < rest.length := by simpa using hk
          have heq : i + (k1 + 1) = (i + 1) + k1 := by omega
          rw [heq] at hfail ⊢
          rw [List.getD_cons_succ] at hfail
          have hmem := ih (i + 1) k1 hk1 hfail
          simp only [mergeLoop]
          cases mergeStep outName u (m i) i seq
          · exact List.mem_cons_of_mem _ hmem
          · exact hmem

/-- A succeeding iteration leaves its output item in the outputs,
whatever the other groups do. -/
theorem mergeLoop_succ_mem (outName : String) (u : Bool) (m : Nat → Bool)
    (item : OutputItem) :
    ∀ (seqs : List (List Task)) (i k : Nat), k < seqs.length →
      mergeStep outName u (m (i + k)) (i + k) (seqs.getD k []) = some item →
      item ∈ (mergeLoop outName u m i seqs).1 := by
  intro seqs
  induction seqs with
  | nil => intro i k hk; simp at hk
  | cons seq rest ih =>
      intro i k hk hsucc
      cases k with
      | zero =>
          simp only [Nat.add_zero] at hsucc
          simp only [List.getD_cons_zero] at hsucc
          simp only [mergeLoop, hsucc]
          exact List.mem_cons_self _ _
      | succ k1 =>
          have hk1 : k1 < rest.length := by simpa using hk
          have heq : i + (k1 + 1) = (i + 1) + k1 := by omega
          rw [heq] at hsucc
          rw [List.getD_cons_succ] at hsucc
          have hmem := ih (i + 1) k1 hk1 hsucc
          simp only [mergeLoop]
          cases mergeStep outName u (m i) i seq
          · exact hmem
          · exact List.mem_cons_of_mem _ hmem

/-! ## Claim theorems -/

/-- C1: for finished video ids 1,2,3,7,8,10 with matching audio ids
the partition loop of `beforeExit` produces the groups
[[2,3],[7,8],[10]] — the first surviving task (id 1) lands in no group
because the loop starts at index 1 and only ever appends the task at
the current index — and not the claimed [[1,2,3],[7,8],[10]]. -/
theorem contiguity_first_task_missing :
    planSeqIds (beforeExitPlan (mkFinished [1, 2, 3, 7, 8, 10] [1, 2, 3, 7, 8, 10]))
      = some [[2, 3], [7, 8], [10]] ∧
    planSeqIds (beforeExitPlan (mkFinished [1, 2, 3, 7, 8, 10] [1, 2, 3, 7, 8, 10]))
      ≠ some [[1, 2, 3], [7, 8], [10]] := by
  decide

/-- C2: on the claim's own input (video ids 1,2,3; audio ids 1,3) the
planner aborts at the parity check (3 ≠ 2) before any orphan
filtering; and on a parity-passing input with an orphan (video ids
1,2; audio ids 1,5) the orphan video task 2 IS filtered out but the
drop counter stays 0 — the increment is guarded by the truthiness of
the flags array itself, never the per-id flag — so no count of 1 is
ever reported. -/
theorem orphan_drop_counter_stays_zero :
    beforeExitPlan (mkFinished [1, 2, 3] [1, 3]) = FinalizePlan.parityMismatch ∧
    planSurvivorIds (beforeExitPlan (mkFinished [1, 2] [1, 5])) = some [1] ∧
    planDropCounter (beforeExitPlan (mkFinished [1, 2] [1, 5])) = some 0 ∧
    (beforeExitRun "wd" "o" (fun _ => true) (mkFinished [1, 2] [1, 5])).warnLines
      = [] := by
  decide

/-- C3: conservation fails — after one video chunk is discovered and
its fetch fails eleven times, the run is fully drained (no pending, no
in-flight work) yet the task sits in neither the finished nor the
dropped set: finished plus dropped is 0 while discovered is 1, because
the source never pushes to `dropedTasks`. -/
theorem conservation_fails_after_retry_exhaustion :
    (run "wd" exhaustedRunEvents).unfinishedTasks = [] ∧
    (run "wd" exhaustedRunEvents).inFlight = [] ∧
    (run "wd" exhaustedRunEvents).discoveredCount = 1 ∧
    (run "wd" exhaustedRunEvents).finishedTasks.length
      + (run "wd" exhaustedRunEvents).dropedTasks.length = 0 := by
  decide

/-- C4: a task that fails strictly more than 10 times is never in the
finished set, but contrary to the claim it does not end in the dropped
set either — after eleven failures every scheduler set is empty, the
exhausted task having been silently forgotten. -/
theorem exhausted_task_lands_nowhere :
    (run "wd" exhaustedRunEvents).dropedTasks = [] ∧
    (run "wd" exhaustedRunEvents).finishedTasks = [] ∧
    (run "wd" exhaustedRunEvents).unfinishedTasks = [] ∧
    (run "wd" exhaustedRunEvents).inFlight = [] := by
  decide

/-- C5: finalize is latched — over every sequence of callbacks,
`beforeExit` fires at most once, and whenever the completion
condition (no in-flight fetch, empty queue, stop notified) holds at
the end of a run it has fired exactly once. -/
theorem finalize_latched_exactly_once (workDir : String) (es : List Event) :
    (run workDir es).finalizeCount ≤ 1 ∧
    ((run workDir es).inFlight = [] → (run workDir es).unfinishedTasks = [] →
      (run workDir es).stopFlag = true → (run workDir es).finalizeCount = 1) := by
  rcases initState_inv workDir with ⟨-, honce⟩
  obtain ⟨h1, h2, h3⟩ := foldl_invOnce es (initState workDir) honce
  simp only [run]
  constructor
  · cases hff : (List.foldl step (initState workDir) es).finishFlag
    · have := h1 hff; omega
    · have := h2 hff; omega
  · intro ha hb hc
    exact h2 (h3 ⟨ha, hb, hc⟩)

/-- C5 witness: a bare stream-end on an idle scheduler satisfies the
completion condition and finalize fires exactly once. -/
theorem finalize_latched_exactly_once_witness :
    (run "wd" [Event.streamEnd]).finalizeCount = 1 :=
  (finalize_latched_exactly_once "wd" [Event.streamEnd]).2
    (by decide) (by decide) (by decide)

/-- C6: over every sequence of callbacks the number of in-flight
fetches stays within the configured cap, which is 16. -/
theorem inflight_never_exceeds_cap (workDir : String) (es : List Event) :
    (run workDir es).inFlight.length ≤ (run workDir es).maxRunningThreads ∧
    (run workDir es).maxRunningThreads = 16 := by
  rcases initState_inv workDir with ⟨hcap, -⟩
  rcases foldl_invCap es (initState workDir) hcap with ⟨g1, g2⟩
  exact ⟨g1, g2⟩

/-- C7: when the finished set is non-empty and the video and audio
counts differ, `beforeExit` aborts before orphan filtering and
partitioning: the plan is the parity bailout (no groups computed), the
two fatal lines are logged — the second naming the working directory —
no output is produced, and `clean()` never runs. -/
theorem parity_mismatch_aborts (workDir outName : String) (muxOk : Nat → Bool)
    (finished : List Task) (hne : finished ≠ [])
    (hcnt : (finishedVideoTasks finished).length
      ≠ (finishedAudioTasks finished).length) :
    beforeExitPlan finished = FinalizePlan.parityMismatch ∧
    planSeqIds (beforeExitPlan finished) = none ∧
    (beforeExitRun workDir outName muxOk finished).errorLines
      = [parityErrorLine, workDirErrorLine workDir] ∧
    (beforeExitRun workDir outName muxOk finished).outputFiles = [] ∧
    (beforeExitRun workDir outName muxOk finished).cleanupRan = false := by
  have hplan : beforeExitPlan finished = FinalizePlan.parityMismatch := by
    unfold beforeExitPlan
    rw [if_neg (by simpa [List.length_eq_zero] using hne), if_pos hcnt]
  refine ⟨hplan, ?_, ?_, ?_, ?_⟩ <;> simp [beforeExitRun, hplan, planSeqIds]

/-- C7 witness: one finished video task and no audio task trips the
parity bailout. -/
theorem parity_mismatch_aborts_witness :
    beforeExitPlan (mkFinished [1] []) = FinalizePlan.parityMismatch ∧
    planSeqIds (beforeExitPlan (mkFinished [1] [])) = none ∧
    (beforeExitRun "wd" "o" (fun _ => true) (mkFinished [1] [])).errorLines
      = [parityErrorLine, workDirErrorLine "wd"] ∧
    (beforeExitRun "wd" "o" (fun _ => true) (mkFinished [1] [])).outputFiles = [] ∧
    (beforeExitRun "wd" "o" (fun _ => true) (mkFinished [1] [])).cleanupRan
      = false :=
  parity_mismatch_aborts "wd" "o" (fun _ => true) (mkFinished [1] [])
    (by decide) (by decide)

/-- C8: the per-fetch timeout handed to `download` is
min(45000, 15000 + 15000 × retry): 15000ms at retry 0, 45000ms at
retry 2, and still 45000ms at retry 5 and beyond. -/
theorem fetch_timeout_policy (t : Task) :
    handleTaskTimeout t = min 45000 (15000 + 15000 * t.retry) ∧
    (t.retry = 0 → handleTaskTimeout t = 15000) ∧
    (t.retry = 2 → handleTaskTimeout t = 45000) ∧
    (5 ≤ t.retry → handleTaskTimeout t = 45000) := by
  refine ⟨rfl, ?_, ?_, ?_⟩ <;> intro h <;> unfold handleTaskTimeout <;> omega

/-- C8 witness: the policy evaluated at retry counts 0, 2 and 5. -/
theorem fetch_timeout_policy_witness :
    handleTaskTimeout (sampleTask 0) = 15000 ∧
    handleTaskTimeout (sampleTask 2) = 45000 ∧
    handleTaskTimeout (sampleTask 5) = 45000 :=
  ⟨(fetch_timeout_policy (sampleTask 0)).2.1 rfl,
   (fetch_timeout_policy (sampleTask 2)).2.2.1 rfl,
   (fetch_timeout_policy (sampleTask 5)).2.2.2 (by decide)⟩

/-- C9: merge failures are isolated — every group yields exactly one
outcome (output or logged error), a failing group's error line is
logged, a succeeding group's output survives failures elsewhere, and
`clean()` runs after the loop whenever the parity bailout was not
taken. -/
theorem merge_failure_isolated (outName workDir : String) (useSuffix : Bool)
    (muxOk : Nat → Bool) (seqs : List (List Task)) (i k j : Nat)
    (item : OutputItem) (finished : List Task)
    (hk : k < seqs.length)
    (hfail : mergeStep outName useSuffix (muxOk (i + k)) (i + k)
      (seqs.getD k []) = none)
    (hj : j < seqs.length)
    (hsucc : mergeStep outName useSuffix (muxOk (i + j)) (i + j)
      (seqs.getD j []) = some item)
    (hplan : beforeExitPlan finished ≠ FinalizePlan.parityMismatch) :
    (mergeLoop outName useSuffix muxOk i seqs).1.length
        + (mergeLoop outName useSuffix muxOk i seqs).2.length = seqs.length ∧
    mergeErrorLine (i + k) ∈ (mergeLoop outName useSuffix muxOk i seqs).2 ∧
    item ∈ (mergeLoop outName useSuffix muxOk i seqs).1 ∧
    (beforeExitRun workDir outName muxOk finished).cleanupRan = true := by
  refine ⟨mergeLoop_length outName useSuffix muxOk seqs i,
    mergeLoop_fail_mem outName useSuffix muxOk seqs i k hk hfail,
    mergeLoop_succ_mem outName useSuffix muxOk item seqs i j hj hsucc, ?_⟩
  rcases hp : beforeExitPlan finished with _ | _ | ⟨d, sv, sq⟩
  · simp [beforeExitRun, hp]
  · exact absurd hp hplan
  · simp [beforeExitRun, hp]

/-- C9 witness: two singleton groups, the muxer failing on the first
and succeeding on the second — both attempted, error logged, output
kept, cleanup runs. -/
theorem merge_failure_isolated_witness :
    (mergeLoop "o" true (fun n => decide (n = 1)) 0 [[c9Task], [c9Task]]).1.length
        + (mergeLoop "o" true (fun n => decide (n = 1)) 0
            [[c9Task], [c9Task]]).2.length = 2 ∧
    mergeErrorLine 0 ∈
      (mergeLoop "o" true (fun n => decide (n = 1)) 0 [[c9Task], [c9Task]]).2 ∧
    c9Item ∈
      (mergeLoop "o" true (fun n => decide (n = 1)) 0 [[c9Task], [c9Task]]).1 ∧
    (beforeExitRun "wd" "o" (fun n => decide (n = 1)) []).cleanupRan = true := by
  have h := merge_failure_isolated "o" "wd" true (fun n => decide (n = 1))
    [[c9Task], [c9Task]] 0 0 1 c9Item [] (by decide) (by decide) (by decide)
    (by decide) (by decide)
  simpa using h

/-- C10: an empty finished set at finalize time takes the early-exit
branch — no parity check outcome, no error, no warning, no group, no
output — and goes straight to `clean()`. -/
theorem empty_capture_direct_cleanup (workDir outName : String)
    (muxOk : Nat → Bool) :
    beforeExitRun workDir outName muxOk [] =
      { plan := FinalizePlan.emptyExit, warnLines := [], errorLines := []
        outputFiles := [], cleanupRan := true } :=
  rfl

end Kkr
